import Mathlib

/-!
Verification of the cc-mirror judge engine.

This file is a shallow embedding of the session-judging core of
cc-mirror (`src/cli/commands/judge/{consensus,session,workers}.ts`)
together with proofs about the consensus reduction, context extraction,
worker dispatch and verdict parsing.

Numbers that the TypeScript code manipulates are embedded as `ℚ`
(JavaScript numbers on the small integral values involved behave like
exact rationals), counts as `ℕ`, and `Math.round` as
`jsRound q = ⌊q + 1/2⌋`, which is exactly JavaScript's
round-half-towards-positive-infinity.  Strings are Lean `String`s; the
JS string/array `slice(-k)` is embedded including its `k = 0` corner
case (`slice(-0)` is `slice(0)`, i.e. the whole value).
-/

namespace Judge

/-! Definitions: the consensus engine (`judge/consensus.ts`). -/

/-- JavaScript `Math.round`, which rounds half towards positive
infinity: `⌊q + 1/2⌋`, stated computably via `Rat.floor`. -/
def jsRound (q : ℚ) : ℤ := (q + 1/2).floor

/-- Membership in the closed verdict set
(`approve | reject | concern | neutral`).  At runtime a verdict is an
arbitrary string: the TypeScript annotation `verdict: Verdict` is not
enforced dynamically, so the embedding uses `String`. -/
def validVerdict (s : String) : Bool :=
  s == "approve" || s == "reject" || s == "concern" || s == "neutral"

/-- Structure `WorkerVerdict` from `judge/types.ts`.  The field
`confidence` is a JS number. -/
structure WorkerVerdict where
  worker : String
  verdict : String
  confidence : ℚ
  summary : String
  concerns : List String
  recommendations : List String
  rawOutput : String
  deriving DecidableEq, Repr

/-- Structure `ConsensusResult` from `judge/types.ts`.  The fields
`confidence` and `agreement` are JS numbers (always set from
`Math.round`, hence integral). -/
structure ConsensusResult where
  finalVerdict : String
  confidence : ℚ
  agreement : ℚ
  summary : String
  allConcerns : List String
  allRecommendations : List String
  dissenting : List WorkerVerdict
  deriving DecidableEq, Repr

/-- Record `counts` of `calculateConsensus`. -/
structure Counts where
  approve : ℕ
  reject : ℕ
  concern : ℕ
  neutral : ℕ
  deriving DecidableEq, Repr

/-- One step of the counting loop:
`if (v.verdict in counts) counts[v.verdict]++`.  A verdict string
outside the closed set hits no key and is not counted. -/
def Counts.incr (c : Counts) (v : String) : Counts :=
  if v = "approve" then { c with approve := c.approve + 1 }
  else if v = "reject" then { c with reject := c.reject + 1 }
  else if v = "concern" then { c with concern := c.concern + 1 }
  else if v = "neutral" then { c with neutral := c.neutral + 1 }
  else c

/-- The counting loop of `calculateConsensus`
(`for (const v of verdicts) …`). -/
def tally (verdicts : List WorkerVerdict) : Counts :=
  verdicts.foldl (fun c v => c.incr v.verdict) ⟨0, 0, 0, 0⟩

/-- Spreading a JS `Set` built from a list: deduplication keeping the
first occurrence of each element. -/
def jsDedup (seen : List String) : List String → List String
  | [] => []
  | x :: xs => if x ∈ seen then jsDedup seen xs else x :: jsDedup (x :: seen) xs

/-- Function `calculateConsensus` from `judge/consensus.ts`. -/
def calculateConsensus (verdicts : List WorkerVerdict) : ConsensusResult :=
  if verdicts.length = 0 then
    { finalVerdict := "mixed"
      confidence := 0
      agreement := 0
      summary := "No worker verdicts available"
      allConcerns := []
      allRecommendations := []
      dissenting := [] }
  else
    let counts := tally verdicts
    let finalVerdict : String :=
      if counts.reject > 0 ∧ counts.reject ≥ counts.approve then "reject"
      else if counts.approve > counts.concern + counts.reject then "approve"
      else if counts.concern > 0 ∨ counts.reject > 0 then "concern"
      else "mixed"
    let maxCount : ℕ := max (max (max counts.approve counts.reject) counts.concern) counts.neutral
    let agreement : ℤ := jsRound (((maxCount : ℚ) / (verdicts.length : ℚ)) * 100)
    let avgConfidence : ℚ :=
      (verdicts.foldl (fun sum v => sum + v.confidence) 0) / (verdicts.length : ℚ)
    let confidence : ℤ := jsRound (avgConfidence * ((agreement : ℚ) / 100))
    let allConcerns := jsDedup [] (verdicts.map (·.concerns)).flatten
    let allRecommendations := jsDedup [] (verdicts.map (·.recommendations)).flatten
    let dissenting := verdicts.filter (fun v =>
      if finalVerdict = "approve" then v.verdict != "approve"
      else if finalVerdict = "reject" then v.verdict != "reject"
      else if finalVerdict = "concern" then v.verdict != "concern" && v.verdict != "reject"
      else false)
    let summaryParts : List String :=
      (if verdicts.length = 1 then
        ["Single worker analysis: " ++ finalVerdict.toUpper ++ "."]
      else
        [toString verdicts.length ++ " workers analyzed this session."] ++
          (if agreement = 100 then
            ["Unanimous verdict: " ++ finalVerdict.toUpper ++ "."]
          else
            [toString agreement ++ "% agreement on verdict: " ++ finalVerdict.toUpper ++ "."])) ++
      (if allConcerns.length > 0 then
        [toString allConcerns.length ++ " concern" ++
          (if allConcerns.length > 1 then "s" else "") ++ " raised."]
      else [])
    { finalVerdict := finalVerdict
      confidence := (confidence : ℚ)
      agreement := (agreement : ℚ)
      summary := " ".intercalate summaryParts
      allConcerns := allConcerns
      allRecommendations := allRecommendations
      dissenting := dissenting }

/-- Spec-side tally: the number of verdicts carrying exactly label `s`. -/
def countV (s : String) (verdicts : List WorkerVerdict) : ℕ :=
  verdicts.countP (fun v => decide (v.verdict = s))

/-- Spec-side largest tally among the four verdict kinds. -/
def maxTally (verdicts : List WorkerVerdict) : ℕ :=
  max (max (max (countV "approve" verdicts) (countV "reject" verdicts))
    (countV "concern" verdicts)) (countV "neutral" verdicts)

/-- Spec-side mean of the workers' confidence values. -/
def meanConfidence (verdicts : List WorkerVerdict) : ℚ :=
  (verdicts.map (·.confidence)).sum / (verdicts.length : ℚ)

/-- Sample verdict builder used in concrete scenarios. -/
def mkV (verdict : String) (confidence : ℚ) : WorkerVerdict :=
  { worker := "skeptic", verdict := verdict, confidence := confidence,
    summary := "", concerns := [], recommendations := [], rawOutput := "" }

/-- Concrete scenario from the spec: `[approve(90), approve(80), reject(70)]`. -/
def judgeExample : List WorkerVerdict :=
  [mkV "approve" 90, mkV "approve" 80, mkV "reject" 70]

/-! Definitions: session parsing and context extraction
(`judge/session.ts`).

Timestamps are epoch milliseconds (`ℤ`).  The platform's
`new Date(string)` parser is passed in as an oracle
`parseDate : String → Option ℤ` (`none` = `NaN`, an invalid date) and
the ambient clock `new Date()` as `now : ℤ`.  A transcript file is a
list of lines already split and JSON-decoded: `none` stands for a line
whose decode failed (silently skipped by the code).  The session id,
which the code derives from the file path's base name, plays no role in
any claim and is not modelled. -/

/-- Nested `message` object of a transcript record. -/
structure MessageBody where
  role : String
  content : String
  deriving DecidableEq, Repr

/-- Structure `SessionMessage` from `judge/types.ts`.  The flag
`isMeta` is optional in TS (absent maps to `false`, matching the code's
truthiness test `!parsed.isMeta`). -/
structure SessionMessage where
  type : String
  message : Option MessageBody
  sessionId : String
  uuid : String
  timestamp : String
  cwd : Option String
  isMeta : Bool
  deriving DecidableEq, Repr

/-- Structure `ParsedSession` from `judge/types.ts` (sans the
unmodelled id). -/
structure ParsedSession where
  messages : List SessionMessage
  cwd : Option String
  startTime : ℤ
  endTime : ℤ
  deriving DecidableEq, Repr

/-- Record filter of `parseSession`:
`parsed.message && (parsed.type === 'user' || parsed.type === 'assistant') && !parsed.isMeta`. -/
def keepRecord (parsed : SessionMessage) : Bool :=
  parsed.message.isSome && (parsed.type == "user" || parsed.type == "assistant") && !parsed.isMeta

/-- Function `parseSession` from `judge/session.ts`, over the decoded
lines. -/
def parseSession (parseDate : String → Option ℤ) (now : ℤ)
    (lines : List (Option SessionMessage)) : ParsedSession :=
  let messages := lines.foldl (fun acc line =>
    match line with
    | some parsed => if keepRecord parsed then acc ++ [parsed] else acc
    | none => acc) []
  let timestamps := messages.filterMap (fun m => parseDate m.timestamp)
  { messages := messages
    cwd := (messages.find? (fun m => m.cwd.getD "" != "")).bind (·.cwd)
    startTime := timestamps.head?.getD now
    endTime := timestamps.getLast?.getD now }

/-- Spec-side: the retained records (decodable, genuine turn, not meta). -/
def retainedRecords (lines : List (Option SessionMessage)) : List SessionMessage :=
  (lines.filterMap id).filter keepRecord

/-- Spec-side: the valid timestamps among the retained records, in
record order. -/
def validTimestamps (parseDate : String → Option ℤ)
    (lines : List (Option SessionMessage)) : List ℤ :=
  (retainedRecords lines).filterMap (fun m => parseDate m.timestamp)

/-- Concrete timestamp oracle for the C9 counterexample. -/
def tsOracle : String → Option ℤ := fun s =>
  if s = "a" then some 100 else if s = "b" then some 50 else none

/-- Retained user record with symbolic timestamp `ts`. -/
def mkUserMsg (ts : String) : SessionMessage :=
  { type := "user", message := some ⟨"user", "hi"⟩, sessionId := "s", uuid := "u",
    timestamp := ts, cwd := none, isMeta := false }

/-- JS `Array.prototype.slice(-k)`: the trailing `k` elements — except
that `slice(-0)` is `slice(0)`, the whole value. -/
def jsSliceLast {α : Type} (l : List α) (k : ℕ) : List α :=
  if k = 0 then l else l.drop (l.length - k)

/-- JS `String.prototype.slice(-k)` on the character sequence. -/
def strSliceLast (s : String) (k : ℕ) : String :=
  if k = 0 then s else ⟨s.data.drop (s.data.length - k)⟩

/-- Literal truncation marker line prepended by `extractContext`. -/
def truncationMarker : String := "[...earlier messages truncated]\n\n"

/-- Formatted conversation text of `extractContext`: last `maxMessages`
messages, each rendered `"<RoleLabel>: <content>"`, joined by blank
lines. -/
def formatConversation (session : ParsedSession) (maxMessages : ℕ) : String :=
  "\n\n".intercalate ((jsSliceLast session.messages maxMessages).map (fun m =>
    (if m.type == "user" then "Human" else "Assistant") ++ ": " ++
      ((m.message.map (·.content)).getD "")))

/-- Function `extractContext` from `judge/session.ts` (the source
defaults `maxMessages` to 30 and `maxChars` to 60000). -/
def extractContext (session : ParsedSession) (maxMessages : ℕ) (maxChars : ℕ) : String :=
  let formatted := formatConversation session maxMessages
  if maxChars < formatted.length then truncationMarker ++ strSliceLast formatted maxChars
  else formatted

/-- One-message session whose formatted text is `"Human: hi"`. -/
def sessionEx : ParsedSession :=
  { messages := [mkUserMsg "a"], cwd := none, startTime := 0, endTime := 0 }

/-! Definitions: worker dispatch and verdict parsing
(`judge/workers.ts`).

Function `spawnWorker` is event-driven: the spawned process either
fires an `error` event (OS-level launch failure) or a `close` event
carrying an exit code (`null` when killed by a signal), while a timer
fires at the timeout.  A `ProcessRun` records one complete run of that
machinery: whether the `error` event fired first, the code seen at
`close`, the accumulated `stdout` and `stderr`, and whether the process
finished before the timer fired (when it did not, the code sets
`timedOut` and sends `SIGTERM`).  `binDir` is taken as an
already-resolved parameter (the source defaults it to
`DEFAULT_BIN_DIR`, a constant of the external core module), and
`path.join` is modelled as `a ++ "/" ++ b`. -/

/-- Structure `SpawnWorkerOptions` from `judge/types.ts` (`timeout`
defaults to 120000 at the destructuring site in `spawnWorker`). -/
structure SpawnWorkerOptions where
  variant : String
  prompt : String
  timeout : ℕ
  binDir : String
  deriving DecidableEq, Repr

/-- Structure `WorkerResult` from `judge/types.ts`. -/
structure WorkerResult where
  success : Bool
  output : String
  error : Option String
  deriving DecidableEq, Repr

/-- One run of the spawned process's event machinery (see the section
comment above). -/
structure ProcessRun where
  spawnError : Option String
  closeCode : Option ℤ
  stdoutData : String
  stderrData : String
  finishedWithinTimeout : Bool
  deriving DecidableEq, Repr

/-- What `spawnWorker` did and resolved to: whether a process was
spawned, whether the timeout handler sent `SIGTERM`, and the
`WorkerResult` the promise resolves with. -/
structure SpawnOutcome where
  spawned : Bool
  sigtermSent : Bool
  result : WorkerResult
  deriving DecidableEq, Repr

/-- Simplified `path.join(binDir, variant)` (no separator collapsing). -/
def pathJoin (a b : String) : String := a ++ "/" ++ b

/-- Timeout diagnostic `'Worker timed out'`. -/
def timeoutMsg : String := "Worker timed out"

/-- Short-circuit diagnostic built from the template
`Variant "<variant>" not found at <wrapperPath>`. -/
def notFoundMsg (variant wrapperPath : String) : String :=
  "Variant \"" ++ variant ++ "\" not found at " ++ wrapperPath

/-- Diagnostic `Exit code <code>` (a signal-killed close reports
`null`). -/
def exitCodeMsg : Option ℤ → String
  | none => "Exit code null"
  | some k => "Exit code " ++ toString k

/-- Function `spawnWorker` from `judge/workers.ts`, over a
`ProcessRun`. -/
def spawnWorker (opts : SpawnWorkerOptions) (fileExists : Bool) (run : ProcessRun) :
    SpawnOutcome :=
  let wrapperPath := pathJoin opts.binDir opts.variant
  if !fileExists then
    { spawned := false, sigtermSent := false,
      result := { success := false, output := "",
                  error := some (notFoundMsg opts.variant wrapperPath) } }
  else
    match run.spawnError with
    | some msg =>
      { spawned := true, sigtermSent := false,
        result := { success := false, output := run.stdoutData, error := some msg } }
    | none =>
      let timedOut := !run.finishedWithinTimeout
      { spawned := true, sigtermSent := timedOut,
        result := { success := (run.closeCode == some 0) && !timedOut,
                    output := run.stdoutData,
                    error := if timedOut then some timeoutMsg
                      else if run.closeCode != some 0 then
                        some (if run.stderrData != "" then run.stderrData
                              else exitCodeMsg run.closeCode)
                      else none } }

/-- Concrete run for the C7 counterexample: the process times out after
having written `"boom"` to standard error and is then signal-killed. -/
def runTimeoutEx : ProcessRun :=
  { spawnError := none, closeCode := none, stdoutData := "partial",
    stderrData := "boom", finishedWithinTimeout := false }

/-- Options for the concrete worker runs. -/
def optsEx : SpawnWorkerOptions :=
  { variant := "zai", prompt := "p", timeout := 120000, binDir := "/bin" }

/-- Clean successful run used as C7 witness input. -/
def runOkEx : ProcessRun :=
  { spawnError := none, closeCode := some 0, stdoutData := "out",
    stderrData := "", finishedWithinTimeout := true }

/-- Structure `WorkerConfig` from `judge/types.ts`. -/
structure WorkerConfig where
  name : String
  variant : String
  promptTemplate : String
  description : String
  deriving DecidableEq, Repr

/-- Index of the leftmost occurrence of `pat` in a character list. -/
def findSubIdx (pat : List Char) : List Char → Option ℕ
  | [] => if pat.isEmpty then some 0 else none
  | c :: cs =>
    if pat.isPrefixOf (c :: cs) then some 0 else (findSubIdx pat cs).map (· + 1)

/-- JS `String.prototype.replace` with a plain-string pattern: replace
the first occurrence only (used for the `{context}` substitution). -/
def replaceFirst (s pat repl : String) : String :=
  match findSubIdx pat.data s.data with
  | none => s
  | some i => ⟨s.data.take i ++ repl.data ++ s.data.drop (i + pat.data.length)⟩

/-- Regex step of `parseWorkerOutput`:
`output.match(/\x7b[\s\S]*?"verdict"[\s\S]*?\x7d/)`.  The lazy leftmost
match runs from the first `'\x7b'` through the first `"verdict"` after
it through the first `'\x7d'` after that (no match when the three parts
never occur in that order). -/
def extractVerdictJson (output : String) : Option String :=
  let cs := output.data
  match findSubIdx ['\x7b'] cs with
  | none => none
  | some p =>
    let rest := cs.drop (p + 1)
    match findSubIdx ("\"verdict\"").data rest with
    | none => none
    | some q =>
      match findSubIdx ['\x7d'] (rest.drop (q + 9)) with
      | none => none
      | some r => some ⟨(cs.drop p).take (q + r + 11)⟩

/-- Fields `parseWorkerOutput` reads off the decoded JSON object.
Field `verdict` is the string value of the `"verdict"` key when present
(`none` = absent/nullish, which JS `??` then substitutes); `confidence`
is `some` exactly when present and numeric; `concerns` and
`recommendations` are `some` exactly when array-shaped. -/
structure JsonVerdictObj where
  verdict : Option String
  confidence : Option ℚ
  summary : Option String
  concerns : Option (List String)
  recommendations : Option (List String)

/-- Shape of the `Partial<WorkerVerdict>` that `parseWorkerOutput`
returns. -/
structure ParsedVerdict where
  verdict : Option String
  confidence : ℚ
  summary : String
  concerns : List String
  recommendations : List String

/-- Function `parseWorkerOutput` from `judge/workers.ts`; the
platform's `JSON.parse` is the oracle `jsonParse` (`none` = it
throws). -/
def parseWorkerOutput (jsonParse : String → Option JsonVerdictObj) (output : String) :
    Option ParsedVerdict :=
  match extractVerdictJson output with
  | none => none
  | some jsonText =>
    match jsonParse jsonText with
    | none => none
    | some parsed => some
      { verdict := parsed.verdict
        confidence := parsed.confidence.getD 50
        summary := parsed.summary.getD ""
        concerns := parsed.concerns.getD []
        recommendations := parsed.recommendations.getD [] }

/-- Function `runWorker` from `judge/workers.ts`, composing the spawn
and the parse.  `binDir` and `timeout` are the caller's
already-resolved options. -/
def runWorker (jsonParse : String → Option JsonVerdictObj) (config : WorkerConfig)
    (context binDir : String) (timeout : ℕ) (fileExists : Bool) (run : ProcessRun) :
    WorkerVerdict :=
  let prompt := replaceFirst config.promptTemplate "{context}" context
  let result := (spawnWorker
    { variant := config.variant, prompt := prompt, timeout := timeout, binDir := binDir }
    fileExists run).result
  let parsed := parseWorkerOutput jsonParse result.output
  { worker := config.name
    verdict := (parsed.bind (·.verdict)).getD "neutral"
    confidence := (parsed.map (·.confidence)).getD 0
    summary := (parsed.map (·.summary)).getD (result.error.getD "Worker did not provide a verdict")
    concerns := (parsed.map (·.concerns)).getD []
    recommendations := (parsed.map (·.recommendations)).getD []
    rawOutput := result.output }

/-- JSON oracle for the C10 counterexample: the worker's payload
decodes to a `verdict` value outside the closed set. -/
def jsonParseEx : String → Option JsonVerdictObj := fun s =>
  if s = "\x7b\"verdict\":\"banana\"\x7d" then
    some { verdict := some "banana", confidence := none, summary := none,
           concerns := none, recommendations := none }
  else none

/-- Worker configuration for the concrete runs. -/
def cfgEx : WorkerConfig :=
  { name := "skeptic", variant := "zai", promptTemplate := "Analyze: {context}",
    description := "d" }

/-- Clean run whose standard output carries the banana payload. -/
def runBananaEx : ProcessRun :=
  { spawnError := none, closeCode := some 0,
    stdoutData := "\x7b\"verdict\":\"banana\"\x7d", stderrData := "",
    finishedWithinTimeout := true }

/-! Helper lemmas. -/

theorem jsRound_eq (q : ℚ) : jsRound q = ⌊q + 1/2⌋ := by
  rw [jsRound, Rat.floor_def' (q + 1/2), Rat.floor_def]

lemma tally_go (l : List WorkerVerdict) (c : Counts) :
    l.foldl (fun c v => c.incr v.verdict) c =
      ⟨c.approve + countV "approve" l, c.reject + countV "reject" l,
        c.concern + countV "concern" l, c.neutral + countV "neutral" l⟩ := by
  induction l generalizing c with
  | nil => simp [countV]
  | cons x xs ih =>
    rw [List.foldl_cons, ih]
    simp only [countV, List.countP_cons, Counts.incr]
    by_cases h1 : x.verdict = "approve" <;>
      by_cases h2 : x.verdict = "reject" <;>
        by_cases h3 : x.verdict = "concern" <;>
          by_cases h4 : x.verdict = "neutral" <;>
            simp_all <;> omega

lemma tally_eq (l : List WorkerVerdict) :
    tally l = ⟨countV "approve" l, countV "reject" l, countV "concern" l, countV "neutral" l⟩ := by
  simpa using tally_go l ⟨0, 0, 0, 0⟩

lemma foldl_confidence (l : List WorkerVerdict) (c : ℚ) :
    l.foldl (fun sum v => sum + v.confidence) c = c + (l.map (·.confidence)).sum := by
  induction l generalizing c with
  | nil => simp
  | cons x xs ih => rw [List.foldl_cons, ih]; simp; ring

lemma length_ne_zero {l : List WorkerVerdict} (h : l ≠ []) : l.length ≠ 0 := by
  simpa [List.length_eq_zero] using h

/-- Final-verdict projection, spelled with the code's own tally. -/
lemma finalVerdict_code (verdicts : List WorkerVerdict) (h : verdicts.length ≠ 0) :
    (calculateConsensus verdicts).finalVerdict =
      (if (tally verdicts).reject > 0 ∧ (tally verdicts).reject ≥ (tally verdicts).approve then
        "reject"
      else if (tally verdicts).approve > (tally verdicts).concern + (tally verdicts).reject then
        "approve"
      else if (tally verdicts).concern > 0 ∨ (tally verdicts).reject > 0 then "concern"
      else "mixed") := by
  unfold calculateConsensus
  rw [if_neg h]

lemma agreement_code (verdicts : List WorkerVerdict) (h : verdicts.length ≠ 0) :
    (calculateConsensus verdicts).agreement =
      ((jsRound
        (((max (max (max (tally verdicts).approve (tally verdicts).reject)
            (tally verdicts).concern) (tally verdicts).neutral : ℕ) : ℚ) /
          (verdicts.length : ℚ) * 100) : ℤ) : ℚ) := by
  unfold calculateConsensus
  rw [if_neg h]

lemma confidence_code (verdicts : List WorkerVerdict) (h : verdicts.length ≠ 0) :
    (calculateConsensus verdicts).confidence =
      ((jsRound
        ((verdicts.foldl (fun sum v => sum + v.confidence) 0) / (verdicts.length : ℚ) *
          (((jsRound
            (((max (max (max (tally verdicts).approve (tally verdicts).reject)
                (tally verdicts).concern) (tally verdicts).neutral : ℕ) : ℚ) /
              (verdicts.length : ℚ) * 100) : ℤ) : ℚ) / 100)) : ℤ) : ℚ) := by
  unfold calculateConsensus
  rw [if_neg h]

lemma dissenting_code (verdicts : List WorkerVerdict) (h : verdicts.length ≠ 0) :
    (calculateConsensus verdicts).dissenting =
      verdicts.filter (fun v =>
        if (calculateConsensus verdicts).finalVerdict = "approve" then v.verdict != "approve"
        else if (calculateConsensus verdicts).finalVerdict = "reject" then v.verdict != "reject"
        else if (calculateConsensus verdicts).finalVerdict = "concern" then
          v.verdict != "concern" && v.verdict != "reject"
        else false) := by
  rw [finalVerdict_code verdicts h]
  unfold calculateConsensus
  rw [if_neg h]

/-- Computed final verdicts range over the four consensus labels. -/
lemma finalVerdict_mem (verdicts : List WorkerVerdict) (h : verdicts.length ≠ 0) :
    (calculateConsensus verdicts).finalVerdict = "reject" ∨
      (calculateConsensus verdicts).finalVerdict = "approve" ∨
        (calculateConsensus verdicts).finalVerdict = "concern" ∨
          (calculateConsensus verdicts).finalVerdict = "mixed" := by
  rw [finalVerdict_code verdicts h]
  split_ifs <;> simp

lemma jsRound_nonneg {q : ℚ} (hq : 0 ≤ q) : 0 ≤ jsRound q := by
  rw [jsRound_eq, Int.le_floor]
  push_cast
  linarith

lemma jsRound_le {q : ℚ} {k : ℤ} (hq : q ≤ (k : ℚ)) : jsRound q ≤ k := by
  rw [jsRound_eq]
  calc ⌊q + 1/2⌋ ≤ ⌊(k : ℚ) + 1/2⌋ := Int.floor_le_floor (by linarith)
    _ = k + ⌊(1/2 : ℚ)⌋ := Int.floor_int_add k (1/2)
    _ = k := by norm_num

lemma sum_confidence_bounds (l : List ℚ) (c : ℚ) (h : ∀ x ∈ l, 0 ≤ x ∧ x ≤ c) :
    0 ≤ l.sum ∧ l.sum ≤ c * l.length := by
  induction l with
  | nil => simp
  | cons x xs ih =>
    obtain ⟨hx0, hxc⟩ := h x (List.mem_cons_self x xs)
    obtain ⟨hs0, hsc⟩ := ih (fun y hy => h y (List.mem_cons_of_mem x hy))
    constructor
    · simpa using add_nonneg hx0 hs0
    · simp only [List.sum_cons, List.length_cons]
      push_cast
      nlinarith

/-- The code's `Math.max(...Object.values(counts))` equals the
spec-side largest tally. -/
lemma maxCode_eq (verdicts : List WorkerVerdict) :
    max (max (max (tally verdicts).approve (tally verdicts).reject) (tally verdicts).concern)
      (tally verdicts).neutral = maxTally verdicts := by
  rw [tally_eq]; rfl

lemma maxTally_le_length (verdicts : List WorkerVerdict) :
    maxTally verdicts ≤ verdicts.length := by
  unfold maxTally countV
  have h1 := List.countP_le_length (fun v => decide (v.verdict = "approve")) (l := verdicts)
  have h2 := List.countP_le_length (fun v => decide (v.verdict = "reject")) (l := verdicts)
  have h3 := List.countP_le_length (fun v => decide (v.verdict = "concern")) (l := verdicts)
  have h4 := List.countP_le_length (fun v => decide (v.verdict = "neutral")) (l := verdicts)
  omega

lemma parse_loop_eq (lines : List (Option SessionMessage)) (acc : List SessionMessage) :
    lines.foldl (fun acc line =>
      match line with
      | some parsed => if keepRecord parsed then acc ++ [parsed] else acc
      | none => acc) acc = acc ++ retainedRecords lines := by
  induction lines generalizing acc with
  | nil => simp [retainedRecords]
  | cons o rest ih =>
    rw [List.foldl_cons, ih]
    cases o with
    | none => simp [retainedRecords]
    | some p =>
      by_cases hp : keepRecord p <;>
        simp [retainedRecords, hp, List.filter_cons, List.append_assoc]

lemma strLength_append (s t : String) : (s ++ t).length = s.length + t.length :=
  List.length_append s.data t.data

lemma strSliceLast_length (s : String) (k : ℕ) (hk : k ≠ 0) (h : k ≤ s.length) :
    (strSliceLast s k).length = k := by
  unfold strSliceLast
  rw [if_neg hk]
  show (s.data.drop (s.data.length - k)).length = k
  rw [List.length_drop]
  have : s.data.length = s.length := rfl
  omega

lemma strData_append (s t : String) : (s ++ t).data = s.data ++ t.data := rfl

lemma incr_invalid (c : Counts) (s : String) (h : validVerdict s = false) : c.incr s = c := by
  simp only [validVerdict, Bool.or_eq_false_iff, beq_eq_false_iff_ne, ne_eq] at h
  simp [Counts.incr, h.1.1.1, h.1.1.2, h.1.2, h.2]

lemma tally_go_filter (l : List WorkerVerdict) (c : Counts) :
    (l.filter (fun v => validVerdict v.verdict)).foldl (fun c v => c.incr v.verdict) c =
      l.foldl (fun c v => c.incr v.verdict) c := by
  induction l generalizing c with
  | nil => rfl
  | cons x xs ih =>
    by_cases hx : validVerdict x.verdict
    · simp [List.filter_cons, hx, ih]
    · simp only [Bool.not_eq_true] at hx
      simp [List.filter_cons, hx, ih, incr_invalid _ _ hx]

/-! Claim C1 — final-verdict selection priority. -/

/-- C1: for every non-empty verdict list, the final verdict follows the
priority order: `reject` when the reject tally is positive and at least
the approve tally; else `approve` when the approve tally strictly
exceeds concern + reject; else `concern` when the concern or reject
tally is positive; else `mixed`. -/
theorem consensus_finalVerdict_priority (verdicts : List WorkerVerdict) (h : verdicts ≠ []) :
    (calculateConsensus verdicts).finalVerdict =
      (if countV "reject" verdicts > 0 ∧ countV "reject" verdicts ≥ countV "approve" verdicts then
        "reject"
      else if countV "approve" verdicts > countV "concern" verdicts + countV "reject" verdicts then
        "approve"
      else if countV "concern" verdicts > 0 ∨ countV "reject" verdicts > 0 then "concern"
      else "mixed") := by
  rw [finalVerdict_code verdicts (length_ne_zero h), tally_eq]

/-- Witness for C1: a unanimous reject input gets final verdict
`reject`. -/
theorem consensus_finalVerdict_priority_witness :
    (calculateConsensus [mkV "reject" 60]).finalVerdict =
      (if countV "reject" [mkV "reject" 60] > 0 ∧
          countV "reject" [mkV "reject" 60] ≥ countV "approve" [mkV "reject" 60] then "reject"
      else if countV "approve" [mkV "reject" 60] >
          countV "concern" [mkV "reject" 60] + countV "reject" [mkV "reject" 60] then "approve"
      else if countV "concern" [mkV "reject" 60] > 0 ∨ countV "reject" [mkV "reject" 60] > 0 then
        "concern"
      else "mixed") :=
  consensus_finalVerdict_priority [mkV "reject" 60] (List.cons_ne_nil _ _)

/-! Claim C2 — agreement and confidence formulas. -/

/-- C2: for every non-empty list of `n` verdicts, `agreement` is
`round(100·m/n)` for `m` the largest tally among the four kinds, and
`confidence` is `round(mean(confidence)·agreement/100)`; in particular
the `[approve(90), approve(80), reject(70)]` scenario yields
`approve`, agreement `67` and confidence `54`. -/
theorem consensus_agreement_confidence (verdicts : List WorkerVerdict) (h : verdicts ≠ []) :
    (calculateConsensus verdicts).agreement =
      ((jsRound ((100 * (maxTally verdicts : ℚ)) / (verdicts.length : ℚ)) : ℤ) : ℚ) ∧
    (calculateConsensus verdicts).confidence =
      ((jsRound (meanConfidence verdicts * (calculateConsensus verdicts).agreement / 100) : ℤ) : ℚ) ∧
    (calculateConsensus judgeExample).finalVerdict = "approve" ∧
    (calculateConsensus judgeExample).agreement = 67 ∧
    (calculateConsensus judgeExample).confidence = 54 := by
  have hl := length_ne_zero h
  have htally : tally judgeExample = ⟨2, 1, 0, 0⟩ := by decide
  refine ⟨?_, ?_, ?_, ?_, ?_⟩
  · rw [agreement_code verdicts hl, tally_eq]
    congr 2
    unfold maxTally
    ring
  · rw [confidence_code verdicts hl, agreement_code verdicts hl, foldl_confidence]
    congr 2
    unfold meanConfidence
    ring
  · rw [finalVerdict_code judgeExample (by decide), htally]
    decide
  · rw [agreement_code judgeExample (by decide), htally]
    norm_num [judgeExample, jsRound_eq]
  · rw [confidence_code judgeExample (by decide), htally]
    norm_num [judgeExample, mkV, jsRound_eq]

/-- Witness for C2 at the concrete scenario list. -/
theorem consensus_agreement_confidence_witness :
    (calculateConsensus judgeExample).agreement =
      ((jsRound ((100 * (maxTally judgeExample : ℚ)) / (judgeExample.length : ℚ)) : ℤ) : ℚ) ∧
    (calculateConsensus judgeExample).confidence =
      ((jsRound
        (meanConfidence judgeExample * (calculateConsensus judgeExample).agreement / 100) : ℤ) : ℚ) ∧
    (calculateConsensus judgeExample).finalVerdict = "approve" ∧
    (calculateConsensus judgeExample).agreement = 67 ∧
    (calculateConsensus judgeExample).confidence = 54 :=
  consensus_agreement_confidence judgeExample (List.cons_ne_nil _ _)

/-! Claim C3 — the degenerate empty-input result. -/

/-- Counterexample to C3 as stated: the degenerate summary string is
`"No worker verdicts available"`, not `"no verdicts available"`. -/
theorem consensus_empty_summary_counterexample :
    ((calculateConsensus []).summary == "no verdicts available") = false ∧
    (calculateConsensus []).summary = "No worker verdicts available" := by
  decide

/-- C3 (amended): the empty verdict list yields exactly the fixed
degenerate result, whose summary reads `"No worker verdicts
available"`. -/
theorem consensus_empty :
    calculateConsensus [] =
      { finalVerdict := "mixed", confidence := 0, agreement := 0,
        summary := "No worker verdicts available", allConcerns := [],
        allRecommendations := [], dissenting := [] } := rfl

/-! Claim C4 — the dissenting set. -/

/-- C4: a worker is dissenting iff it is an input verdict whose label
differs from the final verdict, except that for a `concern` consensus a
worker dissents only when its verdict is neither `concern` nor
`reject`, and for a `mixed` consensus nobody dissents. -/
theorem consensus_dissenting_spec (verdicts : List WorkerVerdict) (h : verdicts ≠ [])
    (w : WorkerVerdict) :
    w ∈ (calculateConsensus verdicts).dissenting ↔
      w ∈ verdicts ∧
        (if (calculateConsensus verdicts).finalVerdict = "concern" then
          w.verdict ≠ "concern" ∧ w.verdict ≠ "reject"
        else if (calculateConsensus verdicts).finalVerdict = "mixed" then False
        else w.verdict ≠ (calculateConsensus verdicts).finalVerdict) := by
  have hl := length_ne_zero h
  rw [dissenting_code verdicts hl, List.mem_filter]
  rcases finalVerdict_mem verdicts hl with hf | hf | hf | hf <;> rw [hf] <;> simp

/-- Witness for C4: in `[approve(90), reject(70)]` the consensus is
`reject` and the approving worker is dissenting. -/
theorem consensus_dissenting_spec_witness :
    mkV "approve" 90 ∈ (calculateConsensus [mkV "approve" 90, mkV "reject" 70]).dissenting ↔
      mkV "approve" 90 ∈ [mkV "approve" 90, mkV "reject" 70] ∧
        (if (calculateConsensus [mkV "approve" 90, mkV "reject" 70]).finalVerdict = "concern" then
          (mkV "approve" 90).verdict ≠ "concern" ∧ (mkV "approve" 90).verdict ≠ "reject"
        else if (calculateConsensus [mkV "approve" 90, mkV "reject" 70]).finalVerdict = "mixed" then
          False
        else (mkV "approve" 90).verdict ≠
          (calculateConsensus [mkV "approve" 90, mkV "reject" 70]).finalVerdict) :=
  consensus_dissenting_spec [mkV "approve" 90, mkV "reject" 70] (List.cons_ne_nil _ _)
    (mkV "approve" 90)

/-! Claim C5 — agreement and confidence stay integral in [0, 100]. -/

/-- C5: for every non-empty verdict list whose confidences are integers
in `[0, 100]`, the resulting `agreement` and `confidence` are integers
in `[0, 100]`. -/
theorem consensus_bounds (verdicts : List WorkerVerdict) (h : verdicts ≠ [])
    (hconf : ∀ v ∈ verdicts,
      (∃ k : ℤ, v.confidence = (k : ℚ)) ∧ 0 ≤ v.confidence ∧ v.confidence ≤ 100) :
    (0 ≤ (calculateConsensus verdicts).agreement ∧ (calculateConsensus verdicts).agreement ≤ 100 ∧
      ∃ a : ℤ, (calculateConsensus verdicts).agreement = (a : ℚ)) ∧
    (0 ≤ (calculateConsensus verdicts).confidence ∧
      (calculateConsensus verdicts).confidence ≤ 100 ∧
      ∃ c : ℤ, (calculateConsensus verdicts).confidence = (c : ℚ)) := by
  have hl := length_ne_zero h
  have hn : 0 < (verdicts.length : ℚ) := by
    have := Nat.pos_of_ne_zero hl
    exact_mod_cast this
  have hM : (maxTally verdicts : ℚ) ≤ (verdicts.length : ℚ) := by
    exact_mod_cast maxTally_le_length verdicts
  have hM0 : (0 : ℚ) ≤ (maxTally verdicts : ℚ) := by positivity
  have harg0 : 0 ≤ (maxTally verdicts : ℚ) / (verdicts.length : ℚ) * 100 := by positivity
  have harg1 : (maxTally verdicts : ℚ) / (verdicts.length : ℚ) * 100 ≤ 100 := by
    have hdiv : (maxTally verdicts : ℚ) / (verdicts.length : ℚ) ≤ 1 := (div_le_one hn).2 hM
    nlinarith
  have hag0 : 0 ≤ jsRound ((maxTally verdicts : ℚ) / (verdicts.length : ℚ) * 100) :=
    jsRound_nonneg harg0
  have hag1 : jsRound ((maxTally verdicts : ℚ) / (verdicts.length : ℚ) * 100) ≤ 100 :=
    jsRound_le (by exact_mod_cast harg1)
  have hagree : (calculateConsensus verdicts).agreement =
      ((jsRound ((maxTally verdicts : ℚ) / (verdicts.length : ℚ) * 100) : ℤ) : ℚ) := by
    rw [agreement_code verdicts hl, maxCode_eq]
  have hsum := sum_confidence_bounds (verdicts.map (·.confidence)) 100 (by
    intro x hx
    obtain ⟨v, hv, rfl⟩ := List.mem_map.1 hx
    exact (hconf v hv).2)
  have havg0 : 0 ≤ (verdicts.map (·.confidence)).sum / (verdicts.length : ℚ) := by
    exact div_nonneg hsum.1 (le_of_lt hn)
  have havg1 : (verdicts.map (·.confidence)).sum / (verdicts.length : ℚ) ≤ 100 := by
    rw [div_le_iff₀ hn]
    simpa [mul_comm] using hsum.2
  constructor
  · refine ⟨?_, ?_, ?_⟩
    · rw [hagree]; exact_mod_cast hag0
    · rw [hagree]; exact_mod_cast hag1
    · exact ⟨_, hagree⟩
  · have hconf_eq : (calculateConsensus verdicts).confidence =
        ((jsRound ((verdicts.map (·.confidence)).sum / (verdicts.length : ℚ) *
          (((jsRound ((maxTally verdicts : ℚ) / (verdicts.length : ℚ) * 100) : ℤ) : ℚ) /
            100)) : ℤ) : ℚ) := by
      rw [confidence_code verdicts hl, foldl_confidence, maxCode_eq, zero_add]
    have hagq0 : (0 : ℚ) ≤
        ((jsRound ((maxTally verdicts : ℚ) / (verdicts.length : ℚ) * 100) : ℤ) : ℚ) := by
      exact_mod_cast hag0
    have hagq1 : ((jsRound ((maxTally verdicts : ℚ) / (verdicts.length : ℚ) * 100) : ℤ) : ℚ) ≤
        100 := by exact_mod_cast hag1
    have harg0' : 0 ≤ (verdicts.map (·.confidence)).sum / (verdicts.length : ℚ) *
        (((jsRound ((maxTally verdicts : ℚ) / (verdicts.length : ℚ) * 100) : ℤ) : ℚ) / 100) := by
      have := div_nonneg hagq0 (by norm_num : (0:ℚ) ≤ 100)
      exact mul_nonneg havg0 this
    have harg1' : (verdicts.map (·.confidence)).sum / (verdicts.length : ℚ) *
        (((jsRound ((maxTally verdicts : ℚ) / (verdicts.length : ℚ) * 100) : ℤ) : ℚ) / 100) ≤
          100 := by
      have hq1 : ((jsRound ((maxTally verdicts : ℚ) / (verdicts.length : ℚ) * 100) : ℤ) : ℚ) /
          100 ≤ 1 := by linarith
      have hq0 : (0:ℚ) ≤
          ((jsRound ((maxTally verdicts : ℚ) / (verdicts.length : ℚ) * 100) : ℤ) : ℚ) / 100 := by
        linarith
      nlinarith
    refine ⟨?_, ?_, ?_⟩
    · rw [hconf_eq]; exact_mod_cast jsRound_nonneg harg0'
    · rw [hconf_eq]; exact_mod_cast jsRound_le (by exact_mod_cast harg1')
    · exact ⟨_, hconf_eq⟩

/-- Witness for C5 at the singleton `[approve(90)]`. -/
theorem consensus_bounds_witness :
    0 ≤ (calculateConsensus [mkV "approve" 90]).agreement ∧
    (calculateConsensus [mkV "approve" 90]).agreement ≤ 100 ∧
    0 ≤ (calculateConsensus [mkV "approve" 90]).confidence ∧
    (calculateConsensus [mkV "approve" 90]).confidence ≤ 100 :=
  have hb := consensus_bounds [mkV "approve" 90] (List.cons_ne_nil _ _)
    (fun v hv => by
      rw [List.mem_singleton] at hv
      subst hv
      exact ⟨⟨90, rfl⟩, by decide, by decide⟩)
  ⟨hb.1.1, hb.1.2.1, hb.2.1, hb.2.2.1⟩

/-! Claim C9 — session start/end timestamps. -/

/-- Counterexample to C9 as stated: with retained timestamps
`[100, 50]` (out of chronological order), `startTime` is `100` and
`endTime` is `50` — the first/last valid timestamps in record order,
not the earliest/latest ones (`50` is in the valid set below
`startTime`, and `100` is in the valid set above `endTime`). -/
theorem parseSession_earliest_counterexample :
    (parseSession tsOracle 0 [some (mkUserMsg "a"), some (mkUserMsg "b")]).startTime = 100 ∧
    (parseSession tsOracle 0 [some (mkUserMsg "a"), some (mkUserMsg "b")]).endTime = 50 ∧
    (50 : ℤ) ∈ validTimestamps tsOracle [some (mkUserMsg "a"), some (mkUserMsg "b")] ∧
    (100 : ℤ) ∈ validTimestamps tsOracle [some (mkUserMsg "a"), some (mkUserMsg "b")] ∧
    (50 : ℤ) < (parseSession tsOracle 0 [some (mkUserMsg "a"), some (mkUserMsg "b")]).startTime ∧
    (parseSession tsOracle 0 [some (mkUserMsg "a"), some (mkUserMsg "b")]).endTime < 100 := by
  decide

/-- C9 (amended): `parseSession` sets `startTime`/`endTime` to the
first and last valid timestamps among the retained records in record
order (these are the earliest and latest only when the record
timestamps are chronologically ordered), falling back to the current
time when no retained record carries a valid timestamp. -/
theorem parseSession_times (parseDate : String → Option ℤ) (now : ℤ)
    (lines : List (Option SessionMessage)) :
    (parseSession parseDate now lines).startTime =
      ((validTimestamps parseDate lines).head?).getD now ∧
    (parseSession parseDate now lines).endTime =
      ((validTimestamps parseDate lines).getLast?).getD now := by
  have hmsg := parse_loop_eq lines []
  rw [List.nil_append] at hmsg
  unfold parseSession
  rw [hmsg]
  exact ⟨rfl, rfl⟩

/-! Claim C6 — context extraction and truncation. -/

/-- Counterexample to C6 as stated: with `maxChars = 0` the formatted
text (9 characters) exceeds `maxChars`, yet JS `slice(-0)` keeps the
whole text, so the output is strictly longer than `maxChars` plus the
marker. -/
theorem extractContext_maxChars_zero_counterexample :
    0 < (formatConversation sessionEx 30).length ∧
    0 + truncationMarker.length < (extractContext sessionEx 30 0).length := by
  decide

/-- C6 (amended): for every session, `maxMessages`, and
`maxChars ≥ 1`: if the formatted text fits in `maxChars` it is returned
unmodified; otherwise the output is the literal truncation marker
followed by the trailing `maxChars` characters of the formatted text,
and its total length is at most `maxChars` plus the marker length. -/
theorem extractContext_truncation (session : ParsedSession) (maxMessages maxChars : ℕ)
    (h : 1 ≤ maxChars) :
    ((formatConversation session maxMessages).length ≤ maxChars →
      extractContext session maxMessages maxChars = formatConversation session maxMessages) ∧
    (maxChars < (formatConversation session maxMessages).length →
      (extractContext session maxMessages maxChars).data =
        truncationMarker.data ++
          (formatConversation session maxMessages).data.drop
            ((formatConversation session maxMessages).length - maxChars) ∧
      (extractContext session maxMessages maxChars).length ≤
        maxChars + truncationMarker.length) := by
  have hk : maxChars ≠ 0 := Nat.one_le_iff_ne_zero.1 h
  constructor
  · intro hle
    unfold extractContext
    rw [if_neg (not_lt.2 hle)]
  · intro hgt
    unfold extractContext
    rw [if_pos hgt]
    constructor
    · show truncationMarker.data ++ (strSliceLast (formatConversation session maxMessages)
        maxChars).data = _
      congr 1
      unfold strSliceLast
      rw [if_neg hk]
      rfl
    · rw [strLength_append,
        strSliceLast_length _ _ hk (le_of_lt hgt)]
      omega

/-- Witness for C6 at the one-message session with `maxChars = 1`. -/
theorem extractContext_truncation_witness :
    (extractContext sessionEx 30 1).data =
      truncationMarker.data ++
        (formatConversation sessionEx 30).data.drop
          ((formatConversation sessionEx 30).length - 1) ∧
    (extractContext sessionEx 30 1).length ≤ 1 + truncationMarker.length :=
  (extractContext_truncation sessionEx 30 1 (by decide)).2 (by decide)

/-! Claim C8 — missing executable short-circuits without spawning. -/

/-- C8: when the named executable does not exist in the configured
binary directory, `spawnWorker` returns the failure result (no success,
empty output, a diagnostic containing `not found`) and no process is
spawned. -/
theorem spawnWorker_notFound (opts : SpawnWorkerOptions) (run : ProcessRun) :
    spawnWorker opts false run =
      { spawned := false, sigtermSent := false,
        result := { success := false, output := "",
                    error := some (notFoundMsg opts.variant
                      (pathJoin opts.binDir opts.variant)) } } ∧
    ∃ l r : List Char,
      (notFoundMsg opts.variant (pathJoin opts.binDir opts.variant)).data =
        l ++ ("not found").data ++ r := by
  refine ⟨rfl, ("Variant \"").data ++ opts.variant.data ++ ("\" ").data,
    (" at ").data ++ (pathJoin opts.binDir opts.variant).data, ?_⟩
  have hsplit : ("\" not found at " : String) = "\" " ++ "not found" ++ " at " := by decide
  unfold notFoundMsg
  rw [hsplit]
  simp [strData_append, List.append_assoc]

/-! Claim C7 — completion mapping, diagnostics and timeout behaviour. -/

/-- Counterexample to C7 as stated: on a timed-out run with non-empty
standard error, the diagnostic is the timeout marker, not the captured
standard error — the code checks `timedOut` before `stderr`. -/
theorem spawnWorker_diag_counterexample :
    (spawnWorker optsEx true runTimeoutEx).result.success = false ∧
    runTimeoutEx.stderrData = "boom" ∧
    (spawnWorker optsEx true runTimeoutEx).result.error = some timeoutMsg ∧
    ((spawnWorker optsEx true runTimeoutEx).result.error ==
      some runTimeoutEx.stderrData) = false := by
  decide

/-- C7 (amended): for every spawn that proceeds (executable exists, no
launch error): success iff exit status zero and no timeout; on failure
the diagnostic is the timeout marker if timed out, else the captured
standard error if non-empty, else an exit-code description; and on
timeout expiry the process receives `SIGTERM` and the result is marked
timed out regardless of any output already captured. -/
theorem spawnWorker_completion (opts : SpawnWorkerOptions) (run : ProcessRun)
    (h : run.spawnError = none) :
    ((spawnWorker opts true run).result.success = true ↔
      run.closeCode = some 0 ∧ run.finishedWithinTimeout = true) ∧
    ((spawnWorker opts true run).result.success = false →
      (spawnWorker opts true run).result.error =
        some (if run.finishedWithinTimeout = false then timeoutMsg
          else if run.stderrData ≠ "" then run.stderrData
          else exitCodeMsg run.closeCode)) ∧
    (run.finishedWithinTimeout = false →
      (spawnWorker opts true run).sigtermSent = true ∧
      (spawnWorker opts true run).result.error = some timeoutMsg) := by
  obtain ⟨se, cc, so, ser, fin⟩ := run
  simp only at h
  subst h
  cases fin <;> by_cases hcc : cc = some 0 <;> by_cases hs : ser = "" <;>
    simp [spawnWorker, hcc, hs]

/-- Witness for C7: the success iff at a clean run, and the SIGTERM and
timeout marking at a timed-out run. -/
theorem spawnWorker_completion_witness :
    ((spawnWorker optsEx true runOkEx).result.success = true ↔
      runOkEx.closeCode = some 0 ∧ runOkEx.finishedWithinTimeout = true) ∧
    ((spawnWorker optsEx true runTimeoutEx).sigtermSent = true ∧
      (spawnWorker optsEx true runTimeoutEx).result.error = some timeoutMsg) :=
  ⟨(spawnWorker_completion optsEx runOkEx rfl).1,
    (spawnWorker_completion optsEx runTimeoutEx rfl).2.2 rfl⟩

/-! Claim C10 — verdict parsing and the closed set. -/

/-- Counterexample to C10 as stated: a present-but-invalid verdict
value passes through `runWorker` unchanged (JS `??` substitutes only
for null/undefined), so the produced verdict is outside the closed
set. -/
theorem runWorker_closedSet_counterexample :
    (runWorker jsonParseEx cfgEx "ctx" "/bin" 120000 true runBananaEx).verdict = "banana" ∧
    validVerdict (runWorker jsonParseEx cfgEx "ctx" "/bin" 120000 true runBananaEx).verdict =
      false := by
  decide

/-- C10 (amended): the parser copies the verdict value as-is without
validating it against the closed set; `runWorker` substitutes `neutral`
only when parsing yielded no verdict value at all, so invalid values
flow through unchanged — and `calculateConsensus`'s tally counts only
verdicts from the closed set, ignoring the rest. -/
theorem runWorker_verdict_passthrough :
    (∀ (jsonParse : String → Option JsonVerdictObj) (config : WorkerConfig)
      (context binDir : String) (timeout : ℕ) (fileExists : Bool) (run : ProcessRun),
      (runWorker jsonParse config context binDir timeout fileExists run).verdict =
        ((parseWorkerOutput jsonParse
          (spawnWorker
            { variant := config.variant,
              prompt := replaceFirst config.promptTemplate "{context}" context,
              timeout := timeout, binDir := binDir } fileExists run).result.output).bind
          (·.verdict)).getD "neutral") ∧
    (∀ verdicts : List WorkerVerdict,
      tally verdicts = tally (verdicts.filter (fun v => validVerdict v.verdict))) := by
  constructor
  · intro jsonParse config context binDir timeout fileExists run
    rfl
  · intro verdicts
    exact (tally_go_filter verdicts ⟨0, 0, 0, 0⟩).symm

end Judge
